import Mathlib

/-!
Verification of the voice-chat backend's session router and decomposed
speech pipeline (backend/src/server.ts, agents/BaseAgent.ts,
agents/OpenAISTTAgent.ts, agents/OpenAIV2VAgent.ts), shallowly embedded
in Lean.  Strings are modelled as lists of characters and byte buffers as
lists of naturals; network calls are replaced by explicit oracles whose
results drive the same control flow as the source.
-/

namespace VoiceChat

/-- Agent identifiers, from backend/src/types/index.ts `AgentType`. -/
inductive AgentType
  | openaiV2v
  | openaiStt
  | elevenlabs
  deriving DecidableEq, Repr

/-- Adapter status values, from types/index.ts `AgentStatus`. -/
inductive AgentStatus
  | disconnected
  | connecting
  | connected
  | error
  deriving DecidableEq, Repr

/-- Session mode, from types/index.ts `SessionMode`. -/
inductive SessionMode
  | single
  | dual
  deriving DecidableEq, Repr

/-- BaseAgent.ts `getAgentSampleRate`: ElevenLabs needs 16 kHz, the two
OpenAI agents (and the default branch) need 24 kHz. -/
def getAgentSampleRate : AgentType → Nat
  | .elevenlabs => 16000
  | .openaiV2v => 24000
  | .openaiStt => 24000

/-- The routing-state fields of server.ts `SessionState` that
`handleControlMessage` mutates (`mode`, `activeAgents`, `primaryAgent`,
`sampleRate`).  Per-agent statuses are kept in the adapter model below;
agent connect/disconnect calls made by the handler change only those
statuses, never these four fields. -/
structure SessionState where
  mode : SessionMode
  activeAgents : List AgentType
  primaryAgent : AgentType
  sampleRate : Nat
  deriving DecidableEq, Repr

/-- server.ts `createSessionState`: single mode, primary `openai-v2v`. -/
def createSessionState : SessionState :=
  { mode := .single
    activeAgents := [.openaiV2v]
    primaryAgent := .openaiV2v
    sampleRate := getAgentSampleRate .openaiV2v }

/-- Control actions, from types/index.ts `ControlMessage`.  `swap` and
`select` carry the optional `payload.agent`; `toggle-dual` carries the
optional `payload.enabled`. -/
inductive ControlAction
  | start
  | stop
  | swap (agent : Option AgentType)
  | select (agent : Option AgentType)
  | toggleDual (enabled : Option Bool)
  | micRelease
  deriving DecidableEq, Repr

/-- server.ts `handleControlMessage`, restricted to its routing-state
mutations.  `start`, `stop` and `mic-release` only touch adapters (connect,
disconnect, commitAndRespond) and leave these fields unchanged.  A `swap`
or `select` whose payload has no agent is a no-op (the `if
(message.payload?.agent)` guard). -/
def handleControlMessage (s : SessionState) : ControlAction → SessionState
  | .start => s
  | .stop => s
  | .micRelease => s
  | .swap none => s
  | .swap (some a) =>
      { s with
        primaryAgent := a
        activeAgents := if s.mode = .dual then s.activeAgents else [a]
        sampleRate := getAgentSampleRate a }
  | .select none => s
  | .select (some a) =>
      { s with primaryAgent := a, mode := .single, activeAgents := [a] }
  | .toggleDual eo =>
      let enabled := eo.getD (decide (s.mode ≠ .dual))
      if enabled then
        { s with mode := .dual, activeAgents := [.openaiV2v, .elevenlabs] }
      else
        { s with mode := .single, activeAgents := [s.primaryAgent] }

/-- Run a list of control messages through the router. -/
def runControl (s : SessionState) : List ControlAction → SessionState
  | [] => s
  | m :: rest => runControl (handleControlMessage s m) rest

/-- The fixed dual-mode pair hard-coded in the `toggle-dual` case. -/
def dualPair : List AgentType := [.openaiV2v, .elevenlabs]

/-- Side condition under which one control message preserves
`primaryAgent ∈ activeAgents`: a dual-mode `swap` must target a member of
the dual pair, and a `toggle-dual` that enables dual mode must arrive
while `primaryAgent` is in the dual pair. -/
def keepsPrimaryActive (s : SessionState) : ControlAction → Bool
  | .swap (some a) => s.mode ≠ .dual || (a = .openaiV2v || a = .elevenlabs)
  | .toggleDual eo =>
      let enabled := eo.getD (decide (s.mode ≠ .dual))
      !enabled || (s.primaryAgent = .openaiV2v || s.primaryAgent = .elevenlabs)
  | _ => true

/-- `keepsPrimaryActive` holding along a whole trace. -/
def keepsPrimaryActiveTrace (s : SessionState) : List ControlAction → Bool
  | [] => true
  | m :: rest =>
      keepsPrimaryActive s m && keepsPrimaryActiveTrace (handleControlMessage s m) rest

/-- Side condition under which one control message preserves
`sampleRate = getAgentSampleRate primaryAgent`: a `select` must target an
agent whose required rate equals the current primary's rate (the `select`
case never recomputes `sampleRate`). -/
def keepsSampleRate (s : SessionState) : ControlAction → Bool
  | .select (some a) => getAgentSampleRate a = getAgentSampleRate s.primaryAgent
  | _ => true

/-- `keepsSampleRate` holding along a whole trace. -/
def keepsSampleRateTrace (s : SessionState) : List ControlAction → Bool
  | [] => true
  | m :: rest =>
      keepsSampleRate s m && keepsSampleRateTrace (handleControlMessage s m) rest

/-- Inductive invariant for the C1 argument: the primary agent is active,
and in dual mode the active set is exactly the hard-coded pair. -/
def primaryInv (s : SessionState) : Prop :=
  s.primaryAgent ∈ s.activeAgents ∧ (s.mode = .dual → s.activeAgents = dualPair)

instance (s : SessionState) : Decidable (primaryInv s) := by
  unfold primaryInv; infer_instance

theorem primaryInv_init : primaryInv createSessionState := by decide

theorem primaryInv_step (s : SessionState) (m : ControlAction)
    (hInv : primaryInv s) (hOk : keepsPrimaryActive s m = true) :
    primaryInv (handleControlMessage s m) := by
  obtain ⟨hmem, hdual⟩ := hInv
  cases m with
  | start => exact ⟨hmem, hdual⟩
  | stop => exact ⟨hmem, hdual⟩
  | micRelease => exact ⟨hmem, hdual⟩
  | swap a =>
      cases a with
      | none => exact ⟨hmem, hdual⟩
      | some a =>
          simp only [keepsPrimaryActive, Bool.or_eq_true, decide_eq_true_eq,
            Bool.decide_or, ne_eq, decide_not, Bool.not_eq_eq_eq_not,
            Bool.not_true, decide_eq_false_iff_not] at hOk
          by_cases hm : s.mode = .dual
          · simp only [handleControlMessage, hm, if_pos rfl, primaryInv]
            rcases hOk with hOk | hOk
            · exact absurd hm hOk
            · constructor
              · rw [hdual hm]
                rcases hOk with h | h <;> simp [dualPair, h]
              · intro _; exact hdual hm
          · simp only [handleControlMessage, if_neg hm, primaryInv]
            exact ⟨List.mem_singleton.mpr rfl, fun h => absurd h hm⟩
  | select a =>
      cases a with
      | none => exact ⟨hmem, hdual⟩
      | some a =>
          refine ⟨List.mem_singleton.mpr rfl, ?_⟩
          intro h
          simp [handleControlMessage] at h
  | toggleDual eo =>
      by_cases he : eo.getD (decide (s.mode ≠ .dual)) = true
      · simp only [handleControlMessage, he, if_pos rfl, primaryInv]
        simp only [keepsPrimaryActive, he, Bool.not_true, Bool.false_or,
          Bool.or_eq_true, decide_eq_true_eq] at hOk
        constructor
        · rcases hOk with h | h <;> simp [h]
        · intro _; rfl
      · simp only [handleControlMessage, primaryInv]
        rw [if_neg he]
        exact ⟨List.mem_singleton.mpr rfl, by intro h; simp at h⟩

theorem primaryInv_run (s : SessionState) (msgs : List ControlAction)
    (hInv : primaryInv s) (hOk : keepsPrimaryActiveTrace s msgs = true) :
    primaryInv (runControl s msgs) := by
  induction msgs generalizing s with
  | nil => exact hInv
  | cons m rest ih =>
      simp only [keepsPrimaryActiveTrace, Bool.and_eq_true] at hOk
      exact ih _ (primaryInv_step s m hInv hOk.1) hOk.2

/-- Inductive invariant for the C2 argument: the session sample rate is the
rate required by the current primary agent. -/
def rateInv (s : SessionState) : Prop :=
  s.sampleRate = getAgentSampleRate s.primaryAgent

instance (s : SessionState) : Decidable (rateInv s) := by
  unfold rateInv; infer_instance

theorem rateInv_step (s : SessionState) (m : ControlAction)
    (hInv : rateInv s) (hOk : keepsSampleRate s m = true) :
    rateInv (handleControlMessage s m) := by
  cases m with
  | start => exact hInv
  | stop => exact hInv
  | micRelease => exact hInv
  | swap a =>
      cases a with
      | none => exact hInv
      | some a => simp [handleControlMessage, rateInv]
  | select a =>
      cases a with
      | none => exact hInv
      | some a =>
          simp only [keepsSampleRate, decide_eq_true_eq] at hOk
          simp only [handleControlMessage, rateInv]
          rw [hOk]; exact hInv
  | toggleDual eo =>
      simp only [handleControlMessage, rateInv]
      by_cases he : eo.getD (decide (s.mode ≠ .dual)) = true
      · rw [if_pos he]; exact hInv
      · rw [if_neg he]; exact hInv

theorem rateInv_run (s : SessionState) (msgs : List ControlAction)
    (hInv : rateInv s) (hOk : keepsSampleRateTrace s msgs = true) :
    rateInv (runControl s msgs) := by
  induction msgs generalizing s with
  | nil => exact hInv
  | cons m rest ih =>
      simp only [keepsSampleRateTrace, Bool.and_eq_true] at hOk
      exact ih _ (rateInv_step s m hInv hOk.1) hOk.2

/-! ### Audio routing and mic-release (server.ts connection handler) -/

/-- server.ts binary-message branch: iterate over `activeAgents`; an agent
receives the frame (`agent.sendAudio`) exactly when an adapter instance
exists in `session.agents` and its status is `connected`; otherwise the
frame is skipped (logged and dropped, never stored).  The result is the
list of agents the frame is forwarded to, in iteration order. -/
def routeAudioTargets (activeAgents : List AgentType)
    (hasInstance : AgentType → Bool) (status : AgentType → AgentStatus) :
    List AgentType :=
  activeAgents.filter (fun a => hasInstance a && status a = .connected)

/-- server.ts `mic-release` branch: iterate over `activeAgents`; an agent
gets `commitAndRespond()` exactly when its instance exists, its status is
`connected`, and it is the `openai-v2v` agent (the
`agentType === 'openai-v2v' && 'commitAndRespond' in agent` check).  No
other adapter — in particular not `openai-stt` — receives any signal. -/
def micReleaseCommitTargets (activeAgents : List AgentType)
    (hasInstance : AgentType → Bool) (status : AgentType → AgentStatus) :
    List AgentType :=
  activeAgents.filter
    (fun a => hasInstance a && status a = .connected && a = .openaiV2v)

/-! ### Adapter status lifecycle (all three adapters) -/

/-- One occurrence of `setStatus`, across every adapter variant.  Each
constructor stands for the code points that perform that write:

* `connectEntry` — a `connect()` call passing its entry guard.  In all
  three adapters the guard (`if status === connected || connecting
  return`) and `setStatus('connecting')` run synchronously with no await
  between them, so the write happens while the status still is what the
  guard saw.
* `transportOpen` — `setStatus('connected')`: the ws `'open'` handlers
  (OpenAIV2VAgent, ElevenLabsAgent) and the resumption of
  OpenAISTTAgent.connect after a successful validation fetch.  These run
  whenever the transport delivers them, whatever the status has become
  meanwhile (e.g. after an interleaved `disconnect()`).
* `transportError` — `setStatus('error')`: the ws `'error'` handlers
  (which stay attached after `'open'`, so they can also fire while
  connected), the `catch` branches of the connects, and the ElevenLabs
  missing-agent-id pre-check, which errors without ever entering
  `connecting`.
* `transportClose` — `setStatus('disconnected')` from the ws `'close'`
  handlers, including the close forced by the ElevenLabs 10-second
  connection timeout while still connecting.
* `disconnectCall` — `disconnect()`, which always sets `disconnected`.

Event sequences are unconstrained, over-approximating every interleaving
of calls, awaited resumptions and transport callbacks. -/
inductive StatusEvent
  | connectEntry
  | transportOpen
  | transportError
  | transportClose
  | disconnectCall
  deriving DecidableEq, Repr

/-- The status after one `setStatus` occurrence: `connect()` is a no-op
when the guard sees `connected` or `connecting`, otherwise it writes
`connecting`; every other occurrence writes its fixed target
unconditionally. -/
def statusStep (s : AgentStatus) : StatusEvent → AgentStatus
  | .connectEntry =>
      if s = .connected ∨ s = .connecting then s else .connecting
  | .transportOpen => .connected
  | .transportError => .error
  | .transportClose => .disconnected
  | .disconnectCall => .disconnected

/-- Full status history of an adapter processing `evs`, starting at `s`. -/
def statusTrace (s : AgentStatus) : List StatusEvent → List AgentStatus
  | [] => [s]
  | e :: rest => s :: statusTrace (statusStep s e) rest

/-- The status changes (consecutive distinct pairs) in a status history. -/
def statusChanges : List AgentStatus → List (AgentStatus × AgentStatus)
  | a :: b :: rest =>
      (if a = b then [] else [(a, b)]) ++ statusChanges (b :: rest)
  | _ => []

/-- The transitions the claim allows: `disconnected → connecting`,
`connecting → connected`, `connecting → error`, `connected → disconnected`,
`error → disconnected`. -/
def claimedTransitions : List (AgentStatus × AgentStatus) :=
  [(.disconnected, .connecting), (.connecting, .connected),
   (.connecting, .error), (.connected, .disconnected),
   (.error, .disconnected)]

/-- The status changes the code can actually perform: every ordered pair
of distinct statuses except `connected → connecting`.  `connecting` is
only ever entered by `connect()`, whose guard runs synchronously just
before the write, so its source is `disconnected` or `error`; all other
writes have fixed targets and can fire from any status (transport errors
after open, closes and disconnects during a connect, the ElevenLabs
missing-agent-id pre-check, and resumptions after an interleaved
disconnect). -/
def codeTransitions : List (AgentStatus × AgentStatus) :=
  [(.disconnected, .connecting), (.error, .connecting),
   (.disconnected, .connected), (.connecting, .connected),
   (.error, .connected),
   (.disconnected, .error), (.connecting, .error), (.connected, .error),
   (.connecting, .disconnected), (.connected, .disconnected),
   (.error, .disconnected)]

theorem statusTrace_eq_cons (s : AgentStatus) (evs : List StatusEvent) :
    ∃ t, statusTrace s evs = s :: t := by
  cases evs <;> exact ⟨_, rfl⟩

theorem statusStep_change_mem (s : AgentStatus) (e : StatusEvent) :
    statusStep s e = s ∨ (s, statusStep s e) ∈ codeTransitions := by
  cases s <;> cases e <;> decide

theorem statusChanges_sub (s : AgentStatus) (evs : List StatusEvent) :
    ∀ p ∈ statusChanges (statusTrace s evs), p ∈ codeTransitions := by
  induction evs generalizing s with
  | nil =>
      intro p hp
      simp [statusTrace, statusChanges] at hp
  | cons e rest ih =>
      intro p hp
      obtain ⟨t, ht⟩ := statusTrace_eq_cons (statusStep s e) rest
      rw [statusTrace, ht] at hp
      simp only [statusChanges] at hp
      rcases List.mem_append.mp hp with h | h
      · by_cases hs : s = statusStep s e
        · rw [if_pos hs] at h
          simp at h
        · rw [if_neg hs] at h
          simp only [List.mem_singleton] at h
          subst h
          rcases statusStep_change_mem s e with h2 | h2
          · exact absurd h2.symm hs
          · exact h2
      · rw [← ht] at h
        exact ih (statusStep s e) p h

/-! ### Decomposed pipeline: sentence chunking (OpenAISTTAgent) -/

/-- Whitespace characters recognised by the `\s` class of the
`SENTENCE_ENDINGS` regex and by `String.prototype.trim` on the ASCII
range (space, tab, line feed, vertical tab, form feed, carriage return). -/
def isWS (c : Char) : Bool :=
  c = ' ' || c = '\t' || c = '\n' || c = '\r' ||
    c = Char.ofNat 11 || c = Char.ofNat 12

/-- JavaScript `String.prototype.trim`: strip whitespace at both ends. -/
def trimChars (s : List Char) : List Char :=
  ((s.dropWhile isWS).reverse.dropWhile isWS).reverse

/-- A terminal `.`, `!` or `?`, as in `SENTENCE_ENDINGS = /[.!?](?:\s|$)/`. -/
def isSentenceEnd (c : Char) : Bool :=
  c = '.' || c = '!' || c = '?'

/-- `SENTENCE_ENDINGS.test(s)`: the string contains a `.`, `!` or `?`
followed by whitespace or by the end of the string. -/
def hasSentenceBoundary : List Char → Bool
  | [] => false
  | [c] => isSentenceEnd c
  | c :: d :: rest =>
      (isSentenceEnd c && isWS d) || hasSentenceBoundary (d :: rest)

/-- The token loop of `generateAndSpeakResponse`: each token is appended
to the sentence buffer; when `SENTENCE_ENDINGS` matches, the whole buffer
is trimmed, cleared, and (if non-empty) submitted to synthesis.  Returns
the submissions made during the loop, in order, and the leftover buffer
at stream end. -/
def sentenceLoop (buf : List Char) :
    List (List Char) → List (List Char) × List Char
  | [] => ([], buf)
  | tok :: rest =>
      let buf2 := buf ++ tok
      if hasSentenceBoundary buf2 then
        let sentence := trimChars buf2
        let r := sentenceLoop [] rest
        (if sentence.isEmpty then r.1 else sentence :: r.1, r.2)
      else sentenceLoop buf2 rest

/-- All synthesis submissions for a token stream: those made during the
loop, then the end-of-stream flush of any trimmed non-empty remainder
(`if (sentenceBuffer.trim()) await this.synthesizeSpeechStreaming(...)`). -/
def streamSubmissions (tokens : List (List Char)) :
    List (List Char) × List (List Char) :=
  let r := sentenceLoop [] tokens
  let fin := trimChars r.2
  (r.1, if fin.isEmpty then [] else [fin])

/-- Observable events of the generation/synthesis loop, used to express
its sequencing: consuming one generation token, starting a synthesis call
for a sentence, and that synthesis call finishing. -/
inductive PipeEvent
  | token (t : List Char)
  | synthStart (s : List Char)
  | synthEnd (s : List Char)
  deriving DecidableEq, Repr

/-- Event trace of the token loop.  Because the source `await`s
`synthesizeSpeechStreaming(sentence)` inside the loop, the synthesis call
for a completed sentence starts and finishes before the next token is
read; the end-of-stream flush is likewise awaited. -/
def pipelineTrace (buf : List Char) : List (List Char) → List PipeEvent
  | [] =>
      let fin := trimChars buf
      if fin.isEmpty then [] else [.synthStart fin, .synthEnd fin]
  | tok :: rest =>
      let buf2 := buf ++ tok
      PipeEvent.token tok ::
        (if hasSentenceBoundary buf2 then
          let sentence := trimChars buf2
          (if sentence.isEmpty then [] else
            [PipeEvent.synthStart sentence, PipeEvent.synthEnd sentence]) ++
            pipelineTrace [] rest
        else pipelineTrace buf2 rest)

/-- Checks that every synthesis start is immediately followed by the
matching synthesis end — no token consumption (and no other synthesis)
happens while a synthesis call is in flight. -/
def synthImmediatelyEnds : List PipeEvent → Bool
  | [] => true
  | .synthStart s :: .synthEnd t :: rest =>
      decide (s = t) && synthImmediatelyEnds rest
  | .synthStart _ :: _ => false
  | _ :: rest => synthImmediatelyEnds rest

/-- True if some generation token is consumed strictly between a
synthesis start and the matching synthesis end — the overlap the claim
asserts. -/
def tokenBeforeSynthEnd (s : List Char) : List PipeEvent → Bool
  | [] => false
  | .synthEnd t :: rest =>
      if t = s then false else tokenBeforeSynthEnd s rest
  | .token _ :: _ => true
  | .synthStart _ :: rest => tokenBeforeSynthEnd s rest

/-- Whether any synthesis call in the trace overlaps token consumption. -/
def synthOverlapsTokens : List PipeEvent → Bool
  | [] => false
  | .synthStart s :: rest =>
      tokenBeforeSynthEnd s rest || synthOverlapsTokens rest
  | _ :: rest => synthOverlapsTokens rest

/-! ### Decomposed pipeline: synthesis byte re-chunking -/

/-- `OpenAISTTAgent.extractChunk`'s copy loop: walk the accumulated
buffers, skip those entirely before `offset`, stop once past
`offset + length`, and copy `chunk.subarray(startInChunk, endInChunk)`
from each overlapping buffer.  Natural subtraction models the
`Math.max(0, offset - currentOffset)`. -/
def extractChunkAux : List (List Nat) → Nat → Nat → Nat → List Nat
  | [], _, _, _ => []
  | chunk :: rest, offset, length, currentOffset =>
      let chunkEnd := currentOffset + chunk.length
      if chunkEnd ≤ offset then extractChunkAux rest offset length chunkEnd
      else if offset + length ≤ currentOffset then []
      else
        let startInChunk := offset - currentOffset
        let endInChunk := min chunk.length (offset + length - currentOffset)
        (chunk.take endInChunk).drop startInChunk ++
          extractChunkAux rest offset length chunkEnd

/-- `OpenAISTTAgent.extractChunk`: the result array is pre-allocated with
`length` zero bytes, so any positions the copy loop does not reach stay
zero. -/
def extractChunk (chunks : List (List Nat)) (offset length : Nat) :
    List Nat :=
  let copied := extractChunkAux chunks offset length 0
  copied ++ List.replicate (length - copied.length) 0

/-- The `while (totalLength - bytesSent >= targetChunkSize)` loop of
`synthesizeSpeechStreaming` with `targetChunkSize = 4800`: emit one
4800-byte chunk per iteration and advance `bytesSent`.  The first `Nat`
argument is a structural bound on the number of iterations (the loop
consumes 4800 bytes per iteration, so any fuel ≥ totalLength suffices). -/
def drainChunks (chunks : List (List Nat)) (totalLength : Nat) :
    Nat → Nat → List (List Nat) × Nat
  | 0, bytesSent => ([], bytesSent)
  | fuel + 1, bytesSent =>
      if totalLength - bytesSent ≥ 4800 then
        let c := extractChunk chunks bytesSent 4800
        let r := drainChunks chunks totalLength fuel (bytesSent + 4800)
        (c :: r.1, r.2)
      else ([], bytesSent)

/-- The delivery loop of `synthesizeSpeechStreaming`: each upstream byte
delivery (`reader.read()` value) with positive length is appended to the
accumulation, then the while-loop drains full 4800-byte frames; at stream
end the remainder is flushed rounded down to an even byte count
(`alignedRemaining = remaining - (remaining % 2)`). -/
def synthGo (chunks : List (List Nat)) (totalLength bytesSent : Nat) :
    List (List Nat) → List (List Nat)
  | [] =>
      let remaining := totalLength - bytesSent
      if remaining > 0 then
        let aligned := remaining - remaining % 2
        if aligned > 0 then [extractChunk chunks bytesSent aligned] else []
      else []
  | v :: rest =>
      if v.length > 0 then
        let chunks2 := chunks ++ [v]
        let total2 := totalLength + v.length
        let dr := drainChunks chunks2 total2 total2 bytesSent
        dr.1 ++ synthGo chunks2 total2 dr.2 rest
      else synthGo chunks totalLength bytesSent rest

/-- The audio frames `synthesizeSpeechStreaming` emits for one sentence,
given the sequence of upstream byte deliveries. -/
def synthesizeFrames (deliveries : List (List Nat)) : List (List Nat) :=
  synthGo [] 0 0 deliveries

/-! ### Decomposed pipeline: one full turn (OpenAISTTAgent) -/

/-- Conversation roles, from the `conversationHistory` entries. -/
inductive Role
  | user
  | assistant
  deriving DecidableEq, Repr

/-- The mutable fields of an OpenAISTTAgent instance that a turn touches:
status, buffered audio frames, the re-entrancy flag, the bounded
conversation history, and whether a silence timer is pending. -/
structure STTState where
  status : AgentStatus
  audioBuffer : List (List Nat)
  isProcessing : Bool
  conversationHistory : List (Role × List Char)
  silenceTimerPending : Bool
  deriving DecidableEq, Repr

/-- `OpenAISTTAgent.sendAudio`: drop the frame unless connected,
otherwise buffer it and (re)arm the 1-second silence timer. -/
def sttSendAudio (st : STTState) (audio : List Nat) : STTState :=
  if st.status ≠ .connected then st
  else
    { st with
      audioBuffer := st.audioBuffer ++ [audio]
      silenceTimerPending := true }

/-- Events the decomposed adapter emits during one turn (its status never
changes while processing, so no status event appears here). -/
inductive AdapterEvent
  | transcriptOut (role : Role) (text : List Char) (isFinal : Bool)
  | audioOut (frame : List Nat)
  | errorOut (msg : List Char)
  deriving DecidableEq, Repr

/-- Results of the external calls a turn makes: the transcription result
(API error or text), the generation result (API error or the token
stream), and the synthesis byte deliveries for each submitted sentence.
The synthesis transport is modelled as always delivering; no claim
exercises its failure path. -/
structure TurnOracles where
  transcribeResult : Except (List Char) (List Char)
  genResult : Except (List Char) (List (List Char))
  deliver : List Char → List (List Nat)

/-- The `catch` branch of `processAudioBuffer` prefixes thrown errors. -/
def processingFailedMsg (e : List Char) : List Char :=
  ("Processing failed: ").data ++ e

/-- `generateAndSpeakResponse`: push the user turn, cap the history at
the last 10 entries (`slice(-10)`), then stream the generation.  A
generation API error propagates (third component) after the history push.
Otherwise the token loop submits sentences to synthesis (awaited, so each
sentence's frames are emitted in order before anything later), flushes the
trimmed remainder, and finally pushes the assistant turn and emits the
final assistant transcript when the full response is non-empty. -/
def generateAndSpeak (hist : List (Role × List Char))
    (userMessage : List Char)
    (gen : Except (List Char) (List (List Char)))
    (deliver : List Char → List (List Nat)) :
    List (Role × List Char) × List AdapterEvent × Option (List Char) :=
  let hist1 := hist ++ [(Role.user, userMessage)]
  let hist2 :=
    if 10 < hist1.length then hist1.drop (hist1.length - 10) else hist1
  match gen with
  | .error e => (hist2, [], some e)
  | .ok tokens =>
      let r := streamSubmissions tokens
      let subs := r.1 ++ r.2
      let audioEvents :=
        (subs.map fun s =>
          (synthesizeFrames (deliver s)).map AdapterEvent.audioOut).flatten
      let fullResponse := tokens.flatten
      if fullResponse.isEmpty then (hist2, audioEvents, none)
      else
        (hist2 ++ [(Role.assistant, fullResponse)],
         audioEvents ++ [.transcriptOut .assistant fullResponse true],
         none)

/-- `OpenAISTTAgent.processAudioBuffer`: no-op when the buffer is empty
or a turn is already in flight; otherwise set `isProcessing`, clear the
buffer, transcribe, silently abort on an empty or whitespace-only
transcript, else emit the final user transcript and run
`generateAndSpeakResponse`; any thrown error is caught and reported as an
error event, and `isProcessing` is reset in every completing branch
(`finally`). -/
def processAudioBuffer (st : STTState) (o : TurnOracles) :
    STTState × List AdapterEvent :=
  if st.audioBuffer.isEmpty || st.isProcessing then (st, [])
  else
    let st1 := { st with audioBuffer := [], isProcessing := true }
    match o.transcribeResult with
    | .error e =>
        ({ st1 with isProcessing := false },
         [.errorOut (processingFailedMsg e)])
    | .ok t =>
        if (trimChars t).isEmpty then
          ({ st1 with isProcessing := false }, [])
        else
          let g :=
            generateAndSpeak st1.conversationHistory t o.genResult o.deliver
          match g.2.2 with
          | some e =>
              ({ st1 with conversationHistory := g.1, isProcessing := false },
               .transcriptOut .user t true ::
                 (g.2.1 ++ [.errorOut (processingFailedMsg e)]))
          | none =>
              ({ st1 with conversationHistory := g.1, isProcessing := false },
               .transcriptOut .user t true :: g.2.1)

/-! ### Correctness of the byte re-chunker -/

theorem extractChunkAux_eq (chunks : List (List Nat)) :
    ∀ offset length curr,
      extractChunkAux chunks offset length curr =
        (chunks.flatten.drop (offset - curr)).take (length - (curr - offset)) := by
  induction chunks with
  | nil => intro offset length curr; simp [extractChunkAux]
  | cons chunk rest ih =>
      intro offset length curr
      simp only [extractChunkAux, List.flatten_cons]
      by_cases h1 : curr + chunk.length ≤ offset
      · rw [if_pos h1, ih]
        have hsplit : offset - curr =
            chunk.length + (offset - (curr + chunk.length)) := by omega
        rw [hsplit, List.drop_append]
        congr 1
        omega
      · rw [if_neg h1]
        by_cases h2 : offset + length ≤ curr
        · rw [if_pos h2]
          have hz : length - (curr - offset) = 0 := by omega
          rw [hz, List.take_zero]
        · rw [if_neg h2, ih]
          have ha : offset - curr ≤ chunk.length := by omega
          rw [List.drop_append_of_le_length ha,
            List.take_append_eq_append_take]
          congr 1
          · rw [List.drop_take, List.take_eq_take]
            simp only [List.length_drop]
            omega
          · have hz : offset - (curr + chunk.length) = 0 := by omega
            rw [hz, List.drop_zero]
            congr 1
            simp only [List.length_drop]
            omega

theorem extractChunk_eq (chunks : List (List Nat)) (offset length : Nat)
    (h : offset + length ≤ chunks.flatten.length) :
    extractChunk chunks offset length =
      (chunks.flatten.drop offset).take length := by
  unfold extractChunk
  rw [extractChunkAux_eq]
  simp only [Nat.sub_zero, Nat.zero_sub]
  have hlen : ((chunks.flatten.drop offset).take length).length = length := by
    simp only [List.length_take, List.length_drop]
    omega
  rw [hlen, Nat.sub_self, List.replicate_zero, List.append_nil]

theorem drainChunks_spec (chunks : List (List Nat)) (total : Nat)
    (htotal : total = chunks.flatten.length) :
    ∀ fuel sent, total - sent ≤ 4800 * fuel →
      (drainChunks chunks total fuel sent).1.flatten =
          (chunks.flatten.drop sent).take (4800 * ((total - sent) / 4800)) ∧
        (drainChunks chunks total fuel sent).2 =
          sent + 4800 * ((total - sent) / 4800) ∧
        ∀ f ∈ (drainChunks chunks total fuel sent).1, f.length = 4800 := by
  intro fuel
  induction fuel with
  | zero =>
      intro sent hle
      have h0 : total - sent = 0 := by omega
      simp [drainChunks, h0]
  | succ fuel ih =>
      intro sent hle
      by_cases hge : 4800 ≤ total - sent
      · have hk : (total - sent) / 4800 = (total - sent - 4800) / 4800 + 1 :=
          Nat.div_eq_sub_div (by norm_num) hge
        have hrec := ih (sent + 4800) (by omega)
        have hsub : total - (sent + 4800) = total - sent - 4800 := by omega
        rw [hsub] at hrec
        obtain ⟨hflat, hsent, hframes⟩ := hrec
        have hchunk : extractChunk chunks sent 4800 =
            (chunks.flatten.drop sent).take 4800 :=
          extractChunk_eq chunks sent 4800 (by omega)
        simp only [drainChunks, if_pos (show 4800 ≤ total - sent from hge)]
        refine ⟨?_, ?_, ?_⟩
        · simp only [List.flatten_cons, hflat, hchunk]
          rw [hk]
          have hmul : 4800 * ((total - sent - 4800) / 4800 + 1) =
              4800 + 4800 * ((total - sent - 4800) / 4800) := by ring
          rw [hmul, List.take_add, List.drop_drop]
        · simp only [hsent, hk]
          ring
        · intro f hf
          rcases List.mem_cons.mp hf with hf | hf
          · subst hf
            rw [hchunk]
            simp only [List.length_take, List.length_drop]
            omega
          · exact hframes f hf
      · have h0 : (total - sent) / 4800 = 0 := Nat.div_eq_of_lt (by omega)
        simp [drainChunks, if_neg hge, h0]

theorem prefix_drop_take (l₁ l₂ : List Nat) (n m : Nat)
    (h : n + m ≤ l₁.length) :
    ((l₁ ++ l₂).drop n).take m = (l₁.drop n).take m := by
  rw [List.drop_append_of_le_length (by omega),
    List.take_append_eq_append_take]
  have hz : m - (l₁.drop n).length = 0 := by
    simp only [List.length_drop]
    omega
  rw [hz, List.take_zero, List.append_nil]

theorem synthGo_spec (ds : List (List Nat)) :
    ∀ chunks sent, sent ≤ chunks.flatten.length →
      (synthGo chunks chunks.flatten.length sent ds).flatten =
          ((chunks.flatten ++ ds.flatten).drop sent).take
            ((chunks.flatten.length + ds.flatten.length - sent) -
              (chunks.flatten.length + ds.flatten.length - sent) % 2) ∧
        ∀ f ∈ synthGo chunks chunks.flatten.length sent ds,
          f.length % 2 = 0 := by
  induction ds with
  | nil =>
      intro chunks sent hsent
      simp only [synthGo, List.flatten_nil, List.append_nil, List.length_nil,
        Nat.add_zero]
      by_cases hrem : chunks.flatten.length - sent > 0
      · rw [if_pos hrem]
        by_cases hal : (chunks.flatten.length - sent) -
            (chunks.flatten.length - sent) % 2 > 0
        · rw [if_pos hal]
          have hx := extractChunk_eq chunks sent
            ((chunks.flatten.length - sent) -
              (chunks.flatten.length - sent) % 2) (by omega)
          constructor
          · simp only [List.flatten_cons, List.flatten_nil, List.append_nil]
            rw [hx]
          · intro f hf
            rcases List.mem_cons.mp hf with hf | hf
            · subst hf
              rw [hx]
              simp only [List.length_take, List.length_drop]
              omega
            · simp at hf
        · rw [if_neg hal]
          have hz : (chunks.flatten.length - sent) -
              (chunks.flatten.length - sent) % 2 = 0 := by omega
          constructor
          · simp only [List.flatten_nil]
            rw [hz, List.take_zero]
          · intro f hf
            simp at hf
      · rw [if_neg hrem]
        have hz : (chunks.flatten.length - sent) -
            (chunks.flatten.length - sent) % 2 = 0 := by omega
        constructor
        · simp only [List.flatten_nil]
          rw [hz, List.take_zero]
        · intro f hf
          simp at hf
  | cons v rest ih =>
      intro chunks sent hsent
      by_cases hv : v.length > 0
      · simp only [synthGo, if_pos hv]
        have htot2 : chunks.flatten.length + v.length =
            (chunks ++ [v]).flatten.length := by simp
        rw [htot2]
        have hfuel : (chunks ++ [v]).flatten.length - sent ≤
            4800 * (chunks ++ [v]).flatten.length := by omega
        obtain ⟨hdf, hds, hframes⟩ :=
          drainChunks_spec (chunks ++ [v]) _ rfl
            ((chunks ++ [v]).flatten.length) sent hfuel
        have hkle : 4800 * (((chunks ++ [v]).flatten.length - sent) / 4800) ≤
            (chunks ++ [v]).flatten.length - sent := by
          rw [Nat.mul_comm]
          exact Nat.div_mul_le_self _ _
        obtain ⟨hihflat, hiheven⟩ :=
          ih (chunks ++ [v])
            (drainChunks (chunks ++ [v]) (chunks ++ [v]).flatten.length
              (chunks ++ [v]).flatten.length sent).2
            (by rw [hds]; omega)
        constructor
        · rw [List.flatten_append, hdf, hihflat, hds]
          have hpre : (((chunks ++ [v]).flatten).drop sent).take
                (4800 * (((chunks ++ [v]).flatten.length - sent) / 4800)) =
              ((((chunks ++ [v]).flatten) ++ rest.flatten).drop sent).take
                (4800 * (((chunks ++ [v]).flatten.length - sent) / 4800)) :=
            (prefix_drop_take _ _ _ _ (by omega)).symm
          rw [hpre]
          have hjoin : ((chunks ++ [v]).flatten) ++ rest.flatten =
              chunks.flatten ++ (v :: rest).flatten := by
            simp
          rw [hjoin]
          rw [show sent + 4800 * (((chunks ++ [v]).flatten.length - sent) /
              4800) = sent + 4800 * (((chunks ++ [v]).flatten.length - sent) /
              4800) from rfl]
          have hdd : (chunks.flatten ++ (v :: rest).flatten).drop
                (sent + 4800 * (((chunks ++ [v]).flatten.length - sent) /
                  4800)) =
              ((chunks.flatten ++ (v :: rest).flatten).drop sent).drop
                (4800 * (((chunks ++ [v]).flatten.length - sent) / 4800)) := by
            rw [List.drop_drop]
          rw [hdd, ← List.take_add]
          congr 1
          have hlen2 : (chunks ++ [v]).flatten.length =
              chunks.flatten.length + v.length := by simp
          have hlenr : ((v :: rest).flatten).length =
              v.length + rest.flatten.length := by simp
          omega
        · intro f hf
          rcases List.mem_append.mp hf with hf | hf
          · rw [hframes f hf]
          · exact hiheven f hf
      · have hveq : v = [] := by
          cases v with
          | nil => rfl
          | cons a t => simp at hv
        subst hveq
        simp only [synthGo, if_neg hv]
        have := ih chunks sent hsent
        simpa using this

theorem synthesizeFrames_spec (ds : List (List Nat)) :
    (synthesizeFrames ds).flatten =
        ds.flatten.take (ds.flatten.length - ds.flatten.length % 2) ∧
      ∀ f ∈ synthesizeFrames ds, f.length % 2 = 0 := by
  have h := synthGo_spec ds [] 0 (by simp)
  simpa [synthesizeFrames] using h

/-! ### Sequencing lemmas for the token/synthesis trace -/

theorem synthImmediatelyEnds_token (t : List Char) (evs : List PipeEvent) :
    synthImmediatelyEnds (.token t :: evs) = synthImmediatelyEnds evs := rfl

theorem synthImmediatelyEnds_pair (s : List Char) (evs : List PipeEvent) :
    synthImmediatelyEnds (.synthStart s :: .synthEnd s :: evs) =
      synthImmediatelyEnds evs := by
  simp [synthImmediatelyEnds]

/-! ### Claims -/

/-- Claim C1, counterexample: from the initial state, enabling dual mode
and then swapping to `openai-stt` leaves `primaryAgent = openai-stt`
while `activeAgents` stays `[openai-v2v, elevenlabs]`, so the claimed
invariant `primaryAgent ∈ activeAgents` fails after a control message. -/
theorem claim_C1_counterexample :
    (runControl createSessionState
        [.toggleDual (some true), .swap (some .openaiStt)]).primaryAgent ∉
      (runControl createSessionState
        [.toggleDual (some true), .swap (some .openaiStt)]).activeAgents := by
  decide

/-- Claim C1 (amended): `primaryAgent ∈ activeAgents` holds after every
control-message trace from the initial state, provided every `swap`
received in dual mode targets a member of the fixed dual pair
{openai-v2v, elevenlabs} and every `toggle-dual` that enables dual mode
arrives while `primaryAgent` is in that pair. -/
theorem claim_C1_primary_in_active (msgs : List ControlAction)
    (hOk : keepsPrimaryActiveTrace createSessionState msgs = true) :
    (runControl createSessionState msgs).primaryAgent ∈
      (runControl createSessionState msgs).activeAgents :=
  (primaryInv_run createSessionState msgs primaryInv_init hOk).1

/-- Claim C1, witness: a concrete trace exercising start, swap,
toggle-dual both ways, select and mic-release satisfies the side
condition, and the invariant holds at its end. -/
theorem claim_C1_witness :
    keepsPrimaryActiveTrace createSessionState
        [.start, .swap (some .elevenlabs), .toggleDual (some true),
          .swap (some .openaiV2v), .toggleDual (some false),
          .select (some .openaiStt), .micRelease] = true ∧
      (runControl createSessionState
          [.start, .swap (some .elevenlabs), .toggleDual (some true),
            .swap (some .openaiV2v), .toggleDual (some false),
            .select (some .openaiStt), .micRelease]).primaryAgent ∈
        (runControl createSessionState
          [.start, .swap (some .elevenlabs), .toggleDual (some true),
            .swap (some .openaiV2v), .toggleDual (some false),
            .select (some .openaiStt), .micRelease]).activeAgents :=
  ⟨by decide, claim_C1_primary_in_active _ (by decide)⟩

/-- Claim C2, counterexample: a `select(elevenlabs)` from the initial
state changes `primaryAgent` to `elevenlabs` (which requires 16000) but
leaves `sampleRate` at 24000 — the `select` case never recomputes it. -/
theorem claim_C2_counterexample :
    ¬ (runControl createSessionState
          [.select (some .elevenlabs)]).sampleRate =
        getAgentSampleRate
          (runControl createSessionState
            [.select (some .elevenlabs)]).primaryAgent := by
  decide

/-- Claim C2 (amended): `sampleRate = getAgentSampleRate primaryAgent`
holds after every control-message trace from the initial state, provided
every `select` targets an agent whose required rate equals the required
rate of the primary agent at that moment (`swap` recomputes the rate,
`select` does not). -/
theorem claim_C2_sample_rate (msgs : List ControlAction)
    (hOk : keepsSampleRateTrace createSessionState msgs = true) :
    (runControl createSessionState msgs).sampleRate =
      getAgentSampleRate
        (runControl createSessionState msgs).primaryAgent :=
  rateInv_run createSessionState msgs (by decide) hOk

/-- Claim C2, witness: a trace whose `select` targets the agent that is
already primary satisfies the side condition and preserves the rate
invariant. -/
theorem claim_C2_witness :
    keepsSampleRateTrace createSessionState
        [.swap (some .elevenlabs), .select (some .elevenlabs),
          .toggleDual (some true), .stop] = true ∧
      (runControl createSessionState
          [.swap (some .elevenlabs), .select (some .elevenlabs),
            .toggleDual (some true), .stop]).sampleRate =
        getAgentSampleRate
          (runControl createSessionState
            [.swap (some .elevenlabs), .select (some .elevenlabs),
              .toggleDual (some true), .stop]).primaryAgent :=
  ⟨by decide, claim_C2_sample_rate _ (by decide)⟩

/-- Claim C3, counterexample: on the concrete two-sentence token stream
["One.", " Two."] the trace shows the synthesis call for "One."
finishing before the token of the second sentence is consumed, and no
token is ever consumed while a synthesis call is in flight — the claimed
overlap between synthesis of sentence k and token consumption for
sentence k+1 does not happen. -/
theorem claim_C3_counterexample :
    synthOverlapsTokens
        (pipelineTrace [] [("One.").data, (" Two.").data]) = false ∧
      pipelineTrace [] [("One.").data, (" Two.").data] =
        [.token ("One.").data, .synthStart ("One.").data,
          .synthEnd ("One.").data, .token (" Two.").data,
          .synthStart ("Two.").data, .synthEnd ("Two.").data] := by
  decide

/-- Claim C3 (amended): the token loop `await`s each
`synthesizeSpeechStreaming` call, so every synthesis call completes
immediately after it starts, before any further generation token is
consumed: synthesis of sentence k never overlaps token consumption for
sentence k+1. -/
theorem claim_C3_sequential_synthesis (buf : List Char)
    (tokens : List (List Char)) :
    synthImmediatelyEnds (pipelineTrace buf tokens) = true := by
  induction tokens generalizing buf with
  | nil =>
      simp only [pipelineTrace]
      by_cases hs : (trimChars buf).isEmpty = true
      · rw [if_pos hs]; rfl
      · rw [if_neg hs, synthImmediatelyEnds_pair]; rfl
  | cons tok rest ih =>
      simp only [pipelineTrace]
      rw [synthImmediatelyEnds_token]
      by_cases hb : hasSentenceBoundary (buf ++ tok) = true
      · rw [if_pos hb]
        by_cases hs : (trimChars (buf ++ tok)).isEmpty = true
        · rw [if_pos hs, List.nil_append]
          exact ih []
        · rw [if_neg hs, List.cons_append, List.cons_append,
            List.nil_append, synthImmediatelyEnds_pair]
          exact ih []
      · rw [if_neg hb]
        exact ih (buf ++ tok)

/-- Claim C4 (confirmed): feeding the sentence chunker the token stream
["Hi", " there", ".", " How", " are", " you", "?", " Great"], whose
concatenation is "Hi there. How are you? Great" with no trailing
terminator, yields exactly the submissions "Hi there." and
"How are you?" during the stream and exactly "Great" at stream end. -/
theorem claim_C4_sentence_chunking :
    (["Hi", " there", ".", " How", " are", " you", "?", " Great"].map
        String.data).flatten = ("Hi there. How are you? Great").data ∧
      streamSubmissions
          (["Hi", " there", ".", " How", " are", " you", "?", " Great"].map
            String.data) =
        ([("Hi there.").data, ("How are you?").data], [("Great").data]) := by
  decide

/-- Claim C5 (confirmed): for upstream synthesis deliveries of sizes
3, 9000 and 1 bytes with the 4800-byte target frame size, every emitted
frame has even length and the concatenation of the emitted frames equals
the concatenation of the raw deliveries (total 9004 bytes, already
even). -/
theorem claim_C5_rechunking (d1 d2 d3 : List Nat)
    (h1 : d1.length = 3) (h2 : d2.length = 9000) (h3 : d3.length = 1) :
    (∀ f ∈ synthesizeFrames [d1, d2, d3], f.length % 2 = 0) ∧
      (synthesizeFrames [d1, d2, d3]).flatten = [d1, d2, d3].flatten := by
  obtain ⟨hflat, heven⟩ := synthesizeFrames_spec [d1, d2, d3]
  refine ⟨heven, ?_⟩
  rw [hflat]
  have hlen : ([d1, d2, d3].flatten).length = 9004 := by
    simp [h1, h2, h3]
  rw [hlen]
  have h9 : (9004 : Nat) - 9004 % 2 = 9004 := by norm_num
  rw [h9, ← hlen]
  exact List.take_length _

/-- Claim C5, witness: concrete deliveries of those sizes. -/
theorem claim_C5_witness :
    ((List.replicate 3 7).length = 3 ∧
        (List.replicate 9000 8).length = 9000 ∧
        (List.replicate 1 9).length = 1) ∧
      (∀ f ∈ synthesizeFrames
          [List.replicate 3 7, List.replicate 9000 8, List.replicate 1 9],
        f.length % 2 = 0) ∧
      (synthesizeFrames
          [List.replicate 3 7, List.replicate 9000 8,
            List.replicate 1 9]).flatten =
        [List.replicate 3 7, List.replicate 9000 8,
          List.replicate 1 9].flatten :=
  ⟨⟨by rw [List.length_replicate], by rw [List.length_replicate],
      by rw [List.length_replicate]⟩,
    claim_C5_rechunking _ _ _ (by rw [List.length_replicate])
      (by rw [List.length_replicate]) (by rw [List.length_replicate])⟩

/-- Claim C6, counterexample: with the decomposed `openai-stt` adapter
active, instantiated and connected, the mic-release handler triggers
nothing — only `openai-v2v` ever receives `commitAndRespond`, so the
decomposed adapter keeps waiting for its silence timer. -/
theorem claim_C6_counterexample :
    micReleaseCommitTargets [.openaiStt] (fun _ => true)
        (fun _ => .connected) = [] := by
  decide

/-- Claim C6 (amended): the mic-release control message triggers
commit-and-respond exactly on active, instantiated, connected adapters
that are the `openai-v2v` agent; the decomposed `openai-stt` adapter is
never triggered and begins processing only when its 1-second silence
timer fires. -/
theorem claim_C6_mic_release (active : List AgentType)
    (hasInstance : AgentType → Bool) (status : AgentType → AgentStatus)
    (a : AgentType) :
    a ∈ micReleaseCommitTargets active hasInstance status ↔
      a ∈ active ∧ hasInstance a = true ∧ status a = .connected ∧
        a = .openaiV2v := by
  simp [micReleaseCommitTargets, List.mem_filter, and_assoc]

/-- Claim C6, witness: with both agents active and connected, exactly the
realtime agent is triggered. -/
theorem claim_C6_witness :
    AgentType.openaiV2v ∈
      micReleaseCommitTargets [.openaiV2v, .openaiStt] (fun _ => true)
        (fun _ => .connected) :=
  (claim_C6_mic_release [.openaiV2v, .openaiStt] (fun _ => true)
      (fun _ => .connected) .openaiV2v).mpr (by decide)

/-- Claim C7 (confirmed): a binary audio frame is forwarded exactly to
agents that are active, have an adapter instance, and whose status is
`connected`; and at the adapter level, `sendAudio` on a non-connected
decomposed adapter leaves its state (in particular its audio buffer)
unchanged, so the frame is dropped, never queued. -/
theorem claim_C7_route_audio (active : List AgentType)
    (hasInstance : AgentType → Bool) (status : AgentType → AgentStatus)
    (a : AgentType) :
    (a ∈ routeAudioTargets active hasInstance status ↔
        a ∈ active ∧ hasInstance a = true ∧ status a = .connected) ∧
      ∀ (st : STTState) (frame : List Nat),
        st.status ≠ .connected → sttSendAudio st frame = st := by
  constructor
  · simp [routeAudioTargets, List.mem_filter, and_assoc]
  · intro st frame h
    simp [sttSendAudio, h]

/-- Claim C7, witness: a connected active agent receives the frame, and a
disconnected decomposed adapter keeps its state unchanged on sendAudio. -/
theorem claim_C7_witness :
    (AgentType.openaiV2v ∈
        routeAudioTargets [.openaiV2v] (fun _ => true)
          (fun _ => .connected)) ∧
      sttSendAudio ⟨.disconnected, [], false, [], false⟩ [0, 1] =
        ⟨.disconnected, [], false, [], false⟩ :=
  ⟨(claim_C7_route_audio [.openaiV2v] (fun _ => true) (fun _ => .connected)
        .openaiV2v).1.mpr (by decide),
    (claim_C7_route_audio [] (fun _ => true) (fun _ => .connected)
        .openaiV2v).2 ⟨.disconnected, [], false, [], false⟩ [0, 1]
      (by decide)⟩

/-- Claim C8 (confirmed): when transcription returns a whitespace-only or
empty text, the turn aborts silently: the buffer is left cleared, the
re-entrancy flag is reset, and no event of any kind is emitted — the
conversation history, the status and every other field stay unchanged,
and no generation or synthesis is consulted. -/
theorem claim_C8_empty_transcript (st : STTState) (o : TurnOracles)
    (t : List Char) (hbuf : st.audioBuffer.isEmpty = false)
    (hproc : st.isProcessing = false)
    (ht : o.transcribeResult = .ok t)
    (hempty : (trimChars t).isEmpty = true) :
    processAudioBuffer st o =
      ({ st with audioBuffer := [], isProcessing := false }, []) := by
  simp [processAudioBuffer, hbuf, hproc, ht, hempty]

/-- Claim C8, witness: a connected adapter with buffered audio and a
whitespace-only transcription result. -/
theorem claim_C8_witness :
    processAudioBuffer
        ⟨.connected, [[0, 1]], false, [(Role.user, ("hey").data)], true⟩
        ⟨.ok ("   ").data, .ok [], fun _ => []⟩ =
      (⟨.connected, [], false, [(Role.user, ("hey").data)], true⟩, []) :=
  claim_C8_empty_transcript
    ⟨.connected, [[0, 1]], false, [(Role.user, ("hey").data)], true⟩
    ⟨.ok ("   ").data, .ok [], fun _ => []⟩ (("   ").data)
    (by decide) (by decide) rfl (by decide)

/-- Claim C9, counterexample: a retry after a failed connect performs
the transition error → connecting (the entry guard only blocks
`connecting`/`connected`), and a transport error arriving after open
performs connected → error; neither is among the claimed transitions. -/
theorem claim_C9_counterexample :
    ((AgentStatus.error, AgentStatus.connecting) ∈
        statusChanges
          (statusTrace .disconnected
            [.connectEntry, .transportError, .connectEntry]) ∧
      (AgentStatus.error, AgentStatus.connecting) ∉ claimedTransitions) ∧
      (AgentStatus.connected, AgentStatus.error) ∈
        statusChanges
          (statusTrace .disconnected
            [.connectEntry, .transportOpen, .transportError]) ∧
      (AgentStatus.connected, AgentStatus.error) ∉ claimedTransitions := by
  decide

/-- Claim C9 (amended): over every interleaving of connect/disconnect
calls and transport events, from the initial `disconnected` status, the
set of possible status changes is exactly every ordered pair of distinct
statuses except connected → connecting.  Only `connect()` writes
`connecting`, and its guard runs synchronously just before the write, so
`connecting` is entered only from `disconnected` or `error`; every other
`setStatus` target is fixed and can fire from any status — transport
errors after open give connected → error, a close or disconnect during a
connect gives connecting → disconnected, the ElevenLabs missing-agent-id
pre-check gives disconnected → error, and a connect resuming after an
interleaved disconnect gives disconnected → connected. -/
theorem claim_C9_status_transitions :
    (∀ (evs : List StatusEvent) (p : AgentStatus × AgentStatus),
        p ∈ statusChanges (statusTrace .disconnected evs) →
          p ∈ codeTransitions) ∧
      ∀ p ∈ codeTransitions, ∃ evs : List StatusEvent,
        p ∈ statusChanges (statusTrace .disconnected evs) := by
  constructor
  · intro evs p hp
    exact statusChanges_sub .disconnected evs p hp
  · intro p hp
    fin_cases hp
    · exact ⟨[.connectEntry], by decide⟩
    · exact ⟨[.connectEntry, .transportError, .connectEntry], by decide⟩
    · exact ⟨[.connectEntry, .disconnectCall, .transportOpen], by decide⟩
    · exact ⟨[.connectEntry, .transportOpen], by decide⟩
    · exact ⟨[.connectEntry, .transportError, .transportOpen], by decide⟩
    · exact ⟨[.transportError], by decide⟩
    · exact ⟨[.connectEntry, .transportError], by decide⟩
    · exact ⟨[.connectEntry, .transportOpen, .transportError], by decide⟩
    · exact ⟨[.connectEntry, .transportClose], by decide⟩
    · exact ⟨[.connectEntry, .transportOpen, .disconnectCall], by decide⟩
    · exact ⟨[.connectEntry, .transportError, .disconnectCall], by decide⟩

/-- Claim C9, witness: both directions applied concretely — the retry
trace's error → connecting change is in the amended set, and
connected → error is realized by some event sequence. -/
theorem claim_C9_witness :
    (AgentStatus.error, AgentStatus.connecting) ∈ codeTransitions ∧
      ∃ evs : List StatusEvent,
        (AgentStatus.connected, AgentStatus.error) ∈
          statusChanges (statusTrace .disconnected evs) :=
  ⟨claim_C9_status_transitions.1
      [.connectEntry, .transportError, .connectEntry]
      (.error, .connecting) (by decide),
    claim_C9_status_transitions.2 (.connected, .error) (by decide)⟩

/-- Claim C10 (confirmed): a trigger while the buffer is empty or a turn
is in flight is a complete no-op (state, including buffer and history,
unchanged; no events), and any processed turn — error, empty transcript
or success — ends with `isProcessing = false`, so a later trigger can
start a new turn. -/
theorem claim_C10_single_turn (st : STTState) (o : TurnOracles) :
    ((st.audioBuffer.isEmpty || st.isProcessing) = true →
        processAudioBuffer st o = (st, [])) ∧
      ((st.audioBuffer.isEmpty || st.isProcessing) = false →
        (processAudioBuffer st o).1.isProcessing = false) := by
  constructor
  · intro h
    simp [processAudioBuffer, h]
  · intro h
    cases ht : o.transcribeResult with
    | error e => simp [processAudioBuffer, h, ht]
    | ok t =>
        by_cases hemp : (trimChars t).isEmpty = true
        · simp [processAudioBuffer, h, ht, hemp]
        · cases hg : (generateAndSpeak st.conversationHistory t o.genResult
              o.deliver).2.2 with
          | none => simp [processAudioBuffer, h, ht, hemp, hg]
          | some e => simp [processAudioBuffer, h, ht, hemp, hg]

/-- Claim C10, witness: a no-op trigger on an empty buffer and a full
successful turn that ends with the flag reset. -/
theorem claim_C10_witness :
    (((⟨.connected, [], false, [], false⟩ : STTState).audioBuffer.isEmpty ||
          (⟨.connected, [], false, [], false⟩ : STTState).isProcessing) =
            true ∧
        processAudioBuffer ⟨.connected, [], false, [], false⟩
            ⟨.ok ("Hi.").data, .ok [("Ok.").data], fun _ => [[1, 2]]⟩ =
          (⟨.connected, [], false, [], false⟩, [])) ∧
      (((⟨.connected, [[0, 1]], false, [], false⟩ :
              STTState).audioBuffer.isEmpty ||
          (⟨.connected, [[0, 1]], false, [], false⟩ :
              STTState).isProcessing) = false ∧
        (processAudioBuffer ⟨.connected, [[0, 1]], false, [], false⟩
            ⟨.ok ("Hi.").data, .ok [("Ok.").data],
              fun _ => [[1, 2]]⟩).1.isProcessing = false) :=
  ⟨⟨by decide,
      (claim_C10_single_turn ⟨.connected, [], false, [], false⟩
          ⟨.ok ("Hi.").data, .ok [("Ok.").data], fun _ => [[1, 2]]⟩).1
        (by decide)⟩,
    ⟨by decide,
      (claim_C10_single_turn ⟨.connected, [[0, 1]], false, [], false⟩
          ⟨.ok ("Hi.").data, .ok [("Ok.").data], fun _ => [[1, 2]]⟩).2
        (by decide)⟩⟩

end VoiceChat
